import Mathlib

/-!
Verification development for the todo-list application (service layer
`app/todo_service.py`, schemas `app/models.py`).

Embedding conventions:
* `datetime` values are abstracted as natural-number clock ticks; each
  `datetime.utcnow()` call in the source becomes an explicit `Nat` parameter,
  in call order, and clock monotonicity across reads is a hypothesis.
* The storage layer (`app/database.py`: `get_session`, primary-key access) is
  not part of the sources; it is modelled from the specification, §4.1.
* Fallible boundaries (pydantic validation) return `Except`.
-/

/-- Embeds the persisted model `Todo` of `app/models.py`: `id` is
`Optional[int]` (assigned by the storage layer), the remaining fields are as
declared there, with timestamps abstracted as clock ticks. -/
structure Todo where
  id : Option Nat
  title : String
  description : String
  completed : Bool
  created_at : Nat
  updated_at : Nat
deriving DecidableEq, Repr

/-- Embeds the request schema `TodoCreate` of `app/models.py`
(`description` defaults to the empty string). -/
structure TodoCreate where
  title : String
  description : String
deriving DecidableEq, Repr

/-- Embeds the request schema `TodoUpdate` of `app/models.py`: each field is
independently optional, `None` meaning "leave unchanged". -/
structure TodoUpdate where
  title : Option String
  description : Option String
  completed : Option Bool
deriving DecidableEq, Repr

/-- Embeds the response schema `TodoResponse` of `app/models.py`: timestamps
are rendered as strings (`isoformat`). -/
structure TodoResponse where
  id : Nat
  title : String
  description : String
  completed : Bool
  created_at : String
  updated_at : String
deriving DecidableEq, Repr

/-- Embeds the dict `{"total": .., "completed": .., "pending": ..}` returned by
`TodoService.get_stats`. -/
structure Stats where
  total : Nat
  completed : Nat
  pending : Nat
deriving DecidableEq, Repr

/-- Modelled rendering of `datetime.isoformat()`: with clock ticks abstracted
as naturals, an injective rendering to a string. -/
def isoformat (t : Nat) : String := toString t

/-- Embeds `TodoResponse.from_todo` of `app/models.py`: `id=todo.id or 0`,
timestamps rendered with `isoformat`. -/
def TodoResponse.fromTodo (todo : Todo) : TodoResponse :=
  { id := todo.id.getD 0
    title := todo.title
    description := todo.description
    completed := todo.completed
    created_at := isoformat todo.created_at
    updated_at := isoformat todo.updated_at }

/-- Embeds the pydantic validation run when a `TodoCreate` is constructed:
`title` and `description` carry `max_length` constraints of 200 and 1000
(`app/models.py`).  No other constraint is declared on this schema — in
particular there is no non-emptiness or trimming validator. -/
def TodoCreate.validate (title description : String) : Except String TodoCreate :=
  if title.length > 200 then
    Except.error "title: String should have at most 200 characters"
  else if description.length > 1000 then
    Except.error "description: String should have at most 1000 characters"
  else
    Except.ok { title := title, description := description }

/-- Modelled from the spec: `app/database.py` (the storage layer) is not under
`src/`.  Per §4.1 the store is a table of rows keyed by an auto-assigned
positive integer id that is never reused within a store lifetime.  The row list
keeps the most recently inserted row at its head; `nextId` is the next id the
store will assign. -/
structure StoreState where
  todos : List Todo
  nextId : Nat
deriving DecidableEq, Repr

/-- Modelled from the spec: the freshly initialised (or reset) store — no rows,
ids starting at 1 (ids of persisted rows are positive, §3). -/
def emptyStore : StoreState := { todos := [], nextId := 1 }

/-- Modelled from the spec: primary-key point lookup, as performed by
`session.get(Todo, todo_id)`. -/
def findTodo (s : StoreState) (i : Nat) : Option Todo :=
  s.todos.find? (fun t => decide (t.id = some i))

/-- Modelled from the spec: committing an in-place mutation of the row whose
primary key is `i` (`session.add` + `session.commit` on a loaded row). -/
def replaceTodo (todos : List Todo) (i : Nat) (u : Todo) : List Todo :=
  todos.map (fun t => if t.id = some i then u else t)

/-- Comparison used by `get_all_todos`: `order_by(desc(Todo.created_at))`. -/
def createdGe (a b : Todo) : Prop := b.created_at ≤ a.created_at

instance : DecidableRel createdGe := fun a b => Nat.decLe b.created_at a.created_at

instance : IsTotal Todo createdGe := ⟨fun a b => Nat.le_total b.created_at a.created_at⟩

instance : IsTrans Todo createdGe := ⟨fun _ _ _ h1 h2 => Nat.le_trans h2 h1⟩

/-- Modelled from the spec: the row order the storage layer produces for
`ORDER BY created_at DESC` — ordered by `created_at` descending, ties broken by
insertion order newest first (§4.1).  Since the store list keeps the newest
insertion at its head, a stable insertion sort realises exactly this order. -/
def sortByCreatedDesc (todos : List Todo) : List Todo :=
  List.insertionSort createdGe todos

/-- Embeds `TodoService.get_all_todos`. -/
def TodoService.get_all_todos (s : StoreState) : List TodoResponse :=
  (sortByCreatedDesc s.todos).map TodoResponse.fromTodo

/-- Embeds `TodoService.get_todo_by_id`. -/
def TodoService.get_todo_by_id (s : StoreState) (todo_id : Nat) : Option TodoResponse :=
  (findTodo s todo_id).map TodoResponse.fromTodo

/-- Embeds `TodoService.create_todo`.  The two `datetime.utcnow()` calls in the
source body are the clock parameters `t1` (read for `created_at`) and `t2`
(read for `updated_at`), in call order; the id assignment performed by the
storage layer on commit is modelled from the spec (next positive id). -/
def TodoService.create_todo (s : StoreState) (todo_data : TodoCreate) (t1 t2 : Nat) :
    TodoResponse × StoreState :=
  let todo : Todo :=
    { id := some s.nextId
      title := todo_data.title
      description := todo_data.description
      completed := false
      created_at := t1
      updated_at := t2 }
  (TodoResponse.fromTodo todo, { todos := todo :: s.todos, nextId := s.nextId + 1 })

/-- Field application inside `TodoService.update_todo`: the three
`if todo_data.x is not None: todo.x = todo_data.x` assignments followed by the
unconditional `todo.updated_at = datetime.utcnow()` stamp. -/
def applyUpdate (todo : Todo) (todo_data : TodoUpdate) (now : Nat) : Todo :=
  { todo with
    title := todo_data.title.getD todo.title
    description := todo_data.description.getD todo.description
    completed := todo_data.completed.getD todo.completed
    updated_at := now }

/-- Embeds `TodoService.update_todo`; `now` is the single `datetime.utcnow()`
read of its body. -/
def TodoService.update_todo (s : StoreState) (todo_id : Nat) (todo_data : TodoUpdate)
    (now : Nat) : Option TodoResponse × StoreState :=
  match findTodo s todo_id with
  | none => (none, s)
  | some todo =>
    let todo2 := applyUpdate todo todo_data now
    (some (TodoResponse.fromTodo todo2), { s with todos := replaceTodo s.todos todo_id todo2 })

/-- Embeds `TodoService.toggle_todo_completion`; `now` is the single
`datetime.utcnow()` read of its body. -/
def TodoService.toggle_todo_completion (s : StoreState) (todo_id : Nat) (now : Nat) :
    Option TodoResponse × StoreState :=
  match findTodo s todo_id with
  | none => (none, s)
  | some todo =>
    let todo2 : Todo := { todo with completed := !todo.completed, updated_at := now }
    (some (TodoResponse.fromTodo todo2), { s with todos := replaceTodo s.todos todo_id todo2 })

/-- Embeds `TodoService.delete_todo`: removal, by primary key, of the row
`session.get` found (ids are unique, so at most one row matches). -/
def TodoService.delete_todo (s : StoreState) (todo_id : Nat) : Bool × StoreState :=
  match findTodo s todo_id with
  | none => (false, s)
  | some _ => (true, { s with todos := s.todos.filter (fun t => !decide (t.id = some todo_id)) })

/-- Embeds `TodoService.get_stats`: `total` is the row count, `completed`
counts rows with `completed` set (`sum(1 for todo in all_todos if
todo.completed)`), `pending = total - completed`. -/
def TodoService.get_stats (s : StoreState) : Stats :=
  let total := s.todos.length
  let completed := s.todos.countP (fun t => t.completed)
  let pending := total - completed
  { total := total, completed := completed, pending := pending }

/-- Full create path at the service boundary: constructing the `TodoCreate`
runs the pydantic validators of `app/models.py`, then `create_todo` persists.
Validation happens before the store is touched: on `Except.error` no store
state is produced. -/
def createTodoFlow (title description : String) (s : StoreState) (t1 t2 : Nat) :
    Except String (TodoResponse × StoreState) :=
  (TodoCreate.validate title description).map
    (fun todo_data => TodoService.create_todo s todo_data t1 t2)

/-- Reachable store states, indexed by a lower bound `n` on the clock: every
`datetime.utcnow()` read so far returned at most `n`, and the clock never runs
backwards across reads.  Creates enter through the validated `TodoCreate`
boundary, as in the application. -/
inductive Reachable : Nat → StoreState → Prop where
  | init : Reachable 0 emptyStore
  | create {n s d t1 t2} : Reachable n s →
      TodoCreate.validate d.title d.description = Except.ok d →
      n ≤ t1 → t1 ≤ t2 → Reachable t2 (TodoService.create_todo s d t1 t2).snd
  | update {n s i d t} : Reachable n s → n ≤ t →
      Reachable t (TodoService.update_todo s i d t).snd
  | toggle {n s i t} : Reachable n s → n ≤ t →
      Reachable t (TodoService.toggle_todo_completion s i t).snd
  | del {n s i} : Reachable n s → Reachable n (TodoService.delete_todo s i).snd

/-- Row-level invariant at clock bound `n`: the id is assigned and positive,
and `created_at ≤ updated_at ≤ n`. -/
def RowInv (n : Nat) (t : Todo) : Prop :=
  (∃ k, t.id = some k ∧ 1 ≤ k) ∧ t.created_at ≤ t.updated_at ∧ t.updated_at ≤ n

/-- Store-level invariant at clock bound `n`: the next id to assign is
positive, and every persisted row satisfies `RowInv`. -/
def StoreInv (n : Nat) (s : StoreState) : Prop :=
  1 ≤ s.nextId ∧ ∀ t ∈ s.todos, RowInv n t

/-- Row predicate "created at tick `c`", used to state the stability of the
listing order. -/
def createdAtIs (c : Nat) (t : Todo) : Bool := decide (t.created_at = c)

/-- Statement-side reading of the spec phrase "title is empty after trimming":
a string trims to the empty string exactly when every character is
whitespace. -/
def emptyAfterTrim (s : String) : Bool := s.data.all (fun c => c.isWhitespace)

/-- Concrete persisted row used by witness statements. -/
def sampleTodo : Todo :=
  { id := some 1, title := "Test Todo", description := "", completed := false,
    created_at := 0, updated_at := 0 }

/-- Concrete store holding exactly `sampleTodo`, used by witness statements. -/
def sampleStore : StoreState := { todos := [sampleTodo], nextId := 2 }

/-- Boundary-length title (exactly 200 characters). -/
def maxTitle : String := String.mk (List.replicate 200 'A')

/-- Boundary-length description (exactly 1000 characters). -/
def maxDescription : String := String.mk (List.replicate 1000 'B')

/-! Helper lemmas. -/

theorem rowInv_mono {n m : Nat} {t : Todo} (h : RowInv n t) (hnm : n ≤ m) : RowInv m t :=
  ⟨h.1, h.2.1, Nat.le_trans h.2.2 hnm⟩

theorem storeInv_mono {n m : Nat} {s : StoreState} (h : StoreInv n s) (hnm : n ≤ m) :
    StoreInv m s :=
  ⟨h.1, fun t ht => rowInv_mono (h.2 t ht) hnm⟩

theorem findTodo_eq {s : StoreState} {i : Nat} :
    findTodo s i = List.find? (fun t => decide (t.id = some i)) s.todos := rfl

theorem storeInv_create {n : Nat} {s : StoreState} {d : TodoCreate} {t1 t2 : Nat}
    (h : StoreInv n s) (h1 : n ≤ t1) (h2 : t1 ≤ t2) :
    StoreInv t2 (TodoService.create_todo s d t1 t2).snd := by
  obtain ⟨hnext, hrows⟩ := h
  refine ⟨?_, ?_⟩
  · show 1 ≤ s.nextId + 1
    omega
  · intro t ht
    simp only [TodoService.create_todo, List.mem_cons] at ht
    rcases ht with ht | ht
    · subst ht
      exact ⟨⟨s.nextId, rfl, hnext⟩, h2, Nat.le_refl t2⟩
    · exact rowInv_mono (hrows t ht) (Nat.le_trans h1 h2)

theorem storeInv_update {n : Nat} {s : StoreState} {i : Nat} {d : TodoUpdate} {t : Nat}
    (h : StoreInv n s) (ht : n ≤ t) :
    StoreInv t (TodoService.update_todo s i d t).snd := by
  obtain ⟨hnext, hrows⟩ := h
  cases hf : findTodo s i with
  | none =>
    have hs : (TodoService.update_todo s i d t).snd = s := by
      simp [TodoService.update_todo, hf]
    rw [hs]
    exact storeInv_mono ⟨hnext, hrows⟩ ht
  | some todo =>
    have hf2 : List.find? (fun t => decide (t.id = some i)) s.todos = some todo := hf
    have hmem : todo ∈ s.todos := List.mem_of_find?_eq_some hf2
    have hpred := List.find?_some hf2
    have hid : todo.id = some i := of_decide_eq_true hpred
    have hold : RowInv n todo := hrows todo hmem
    refine ⟨by simpa [TodoService.update_todo, hf] using hnext, ?_⟩
    intro x hx
    simp only [TodoService.update_todo, hf, replaceTodo, List.mem_map] at hx
    obtain ⟨t0, ht0, hx⟩ := hx
    by_cases hc : t0.id = some i
    · simp only [hc, if_pos] at hx
      subst hx
      refine ⟨⟨i, by simp [applyUpdate, hid], ?_⟩, ?_, Nat.le_refl t⟩
      · obtain ⟨k, hk, hk1⟩ := hold.1
        rw [hid] at hk
        have hik : i = k := Option.some.inj hk
        omega
      · show todo.created_at ≤ t
        exact Nat.le_trans hold.2.1 (Nat.le_trans hold.2.2 ht)
    · simp only [hc, if_neg, not_false_eq_true] at hx
      subst hx
      exact rowInv_mono (hrows t0 ht0) ht

theorem storeInv_toggle {n : Nat} {s : StoreState} {i t : Nat}
    (h : StoreInv n s) (ht : n ≤ t) :
    StoreInv t (TodoService.toggle_todo_completion s i t).snd := by
  obtain ⟨hnext, hrows⟩ := h
  cases hf : findTodo s i with
  | none =>
    have hs : (TodoService.toggle_todo_completion s i t).snd = s := by
      simp [TodoService.toggle_todo_completion, hf]
    rw [hs]
    exact storeInv_mono ⟨hnext, hrows⟩ ht
  | some todo =>
    have hf2 : List.find? (fun t => decide (t.id = some i)) s.todos = some todo := hf
    have hmem : todo ∈ s.todos := List.mem_of_find?_eq_some hf2
    have hpred := List.find?_some hf2
    have hid : todo.id = some i := of_decide_eq_true hpred
    have hold : RowInv n todo := hrows todo hmem
    refine ⟨by simpa [TodoService.toggle_todo_completion, hf] using hnext, ?_⟩
    intro x hx
    simp only [TodoService.toggle_todo_completion, hf, replaceTodo, List.mem_map] at hx
    obtain ⟨t0, ht0, hx⟩ := hx
    by_cases hc : t0.id = some i
    · simp only [hc, if_pos] at hx
      subst hx
      refine ⟨⟨i, by simp [hid], ?_⟩, ?_, Nat.le_refl t⟩
      · obtain ⟨k, hk, hk1⟩ := hold.1
        rw [hid] at hk
        have hik : i = k := Option.some.inj hk
        omega
      · show todo.created_at ≤ t
        exact Nat.le_trans hold.2.1 (Nat.le_trans hold.2.2 ht)
    · simp only [hc, if_neg, not_false_eq_true] at hx
      subst hx
      exact rowInv_mono (hrows t0 ht0) ht

theorem storeInv_delete {n : Nat} {s : StoreState} {i : Nat}
    (h : StoreInv n s) : StoreInv n (TodoService.delete_todo s i).snd := by
  obtain ⟨hnext, hrows⟩ := h
  cases hf : findTodo s i with
  | none =>
    have hs : (TodoService.delete_todo s i).snd = s := by simp [TodoService.delete_todo, hf]
    rw [hs]; exact ⟨hnext, hrows⟩
  | some todo =>
    refine ⟨by simpa [TodoService.delete_todo, hf] using hnext, ?_⟩
    intro x hx
    simp only [TodoService.delete_todo, hf, List.mem_filter] at hx
    exact hrows x hx.1

theorem reachable_inv {n : Nat} {s : StoreState} (h : Reachable n s) : StoreInv n s := by
  induction h with
  | init => exact ⟨Nat.le_refl 1, fun t ht => absurd ht (by simp [emptyStore])⟩
  | create _ _ h1 h2 ih => exact storeInv_create ih h1 h2
  | update _ hle ih => exact storeInv_update ih hle
  | toggle _ hle ih => exact storeInv_toggle ih hle
  | del _ ih => exact storeInv_delete ih

theorem find?_replaceTodo {l : List Todo} {i : Nat} {u t : Todo}
    (hu : u.id = some i)
    (h : List.find? (fun x => decide (x.id = some i)) l = some t) :
    List.find? (fun x => decide (x.id = some i)) (replaceTodo l i u) = some u := by
  induction l with
  | nil => simp at h
  | cons a as ih =>
    by_cases hc : a.id = some i
    · have hrepl : replaceTodo (a :: as) i u = u :: replaceTodo as i u := by
        simp [replaceTodo, hc]
      rw [hrepl]
      exact List.find?_cons_of_pos _ (by simp [hu])
    · have hrepl : replaceTodo (a :: as) i u = a :: replaceTodo as i u := by
        simp [replaceTodo, hc]
      have h2 : List.find? (fun x => decide (x.id = some i)) as = some t := by
        rwa [List.find?_cons_of_neg _ (by simp [hc])] at h
      rw [hrepl, List.find?_cons_of_neg _ (by simp [hc])]
      exact ih h2

theorem find?_deleted {l : List Todo} {i : Nat} :
    List.find? (fun x => decide (x.id = some i))
      (l.filter (fun x => !decide (x.id = some i))) = none := by
  rw [List.find?_eq_none]
  intro x hx
  have hne := (List.mem_filter.mp hx).2
  simp at hne ⊢
  exact hne

theorem filter_orderedInsert_pos {c : Nat} {t : Todo} (h : t.created_at = c) (l : List Todo) :
    (List.orderedInsert createdGe t l).filter (createdAtIs c) =
      t :: l.filter (createdAtIs c) := by
  induction l with
  | nil => simp [List.orderedInsert, createdAtIs, h]
  | cons u us ih =>
    by_cases hr : createdGe t u
    · have : List.orderedInsert createdGe t (u :: us) = t :: u :: us := by
        simp [List.orderedInsert, hr]
      rw [this, List.filter_cons]
      simp [createdAtIs, h]
    · have hu : ¬ (u.created_at = c) := by
        unfold createdGe at hr
        omega
      have : List.orderedInsert createdGe t (u :: us) = u :: List.orderedInsert createdGe t us := by
        simp [List.orderedInsert, hr]
      rw [this, List.filter_cons, List.filter_cons]
      simp only [createdAtIs, hu, decide_eq_true_eq, if_neg, not_false_eq_true]
      exact ih

theorem filter_orderedInsert_neg {c : Nat} {t : Todo} (h : ¬ (t.created_at = c)) (l : List Todo) :
    (List.orderedInsert createdGe t l).filter (createdAtIs c) = l.filter (createdAtIs c) := by
  induction l with
  | nil => simp [List.orderedInsert, createdAtIs, h]
  | cons u us ih =>
    by_cases hr : createdGe t u
    · have : List.orderedInsert createdGe t (u :: us) = t :: u :: us := by
        simp [List.orderedInsert, hr]
      rw [this, List.filter_cons]
      simp [createdAtIs, h]
    · have : List.orderedInsert createdGe t (u :: us) = u :: List.orderedInsert createdGe t us := by
        simp [List.orderedInsert, hr]
      rw [this, List.filter_cons, List.filter_cons, ih]

theorem filter_sortByCreatedDesc (l : List Todo) (c : Nat) :
    (sortByCreatedDesc l).filter (createdAtIs c) = l.filter (createdAtIs c) := by
  induction l with
  | nil => rfl
  | cons t ts ih =>
    have hs : sortByCreatedDesc (t :: ts) =
        List.orderedInsert createdGe t (sortByCreatedDesc ts) := rfl
    rw [hs]
    by_cases h : t.created_at = c
    · rw [filter_orderedInsert_pos h, ih, List.filter_cons]
      simp [createdAtIs, h]
    · rw [filter_orderedInsert_neg h, ih, List.filter_cons]
      simp [createdAtIs, h]

/-! Claim theorems. -/

/-- C7: for every store state (hence for every reachable one), `get_stats`
returns `{total, completed, pending}` with `total = completed + pending`,
computed over the full current store contents; on the empty store it returns
all zeros. -/
theorem get_stats_total_split :
    (∀ s : StoreState, (TodoService.get_stats s).total =
      (TodoService.get_stats s).completed + (TodoService.get_stats s).pending) ∧
    TodoService.get_stats emptyStore = { total := 0, completed := 0, pending := 0 } := by
  constructor
  · intro s
    have hle : s.todos.countP (fun t => t.completed) ≤ s.todos.length :=
      List.countP_le_length _
    simp only [TodoService.get_stats]
    omega
  · rfl

/-- C8: `get_todo_by_id` returns the absent signal (`none`) on every id with
no matching record — all such ids are treated identically, through the same
`none` branch — and in particular on id 0 in every reachable store state
(persisted ids are positive). -/
theorem get_todo_by_id_absent :
    (∀ (s : StoreState) (i : Nat), findTodo s i = none →
      TodoService.get_todo_by_id s i = none) ∧
    (∀ (n : Nat) (s : StoreState), Reachable n s →
      TodoService.get_todo_by_id s 0 = none) := by
  constructor
  · intro s i h
    simp [TodoService.get_todo_by_id, h]
  · intro n s h
    have hinv := reachable_inv h
    have hnone : findTodo s 0 = none := by
      rw [findTodo_eq, List.find?_eq_none]
      intro x hx
      obtain ⟨⟨k, hk, hk1⟩, _⟩ := hinv.2 x hx
      simp [hk]
      omega
    simp [TodoService.get_todo_by_id, hnone]

theorem get_todo_by_id_absent_witness :
    TodoService.get_todo_by_id emptyStore 7 = none ∧
    TodoService.get_todo_by_id emptyStore 0 = none :=
  ⟨get_todo_by_id_absent.1 emptyStore 7 rfl,
   get_todo_by_id_absent.2 0 emptyStore Reachable.init⟩

/-- C10: on an id with no matching record, `update_todo`,
`toggle_todo_completion` and `delete_todo` return their absent signal
(`none` / `false`) and leave the store state unchanged. -/
theorem not_found_leaves_store_unchanged :
    ∀ (s : StoreState) (i : Nat) (d : TodoUpdate) (t : Nat), findTodo s i = none →
      TodoService.update_todo s i d t = (none, s) ∧
      TodoService.toggle_todo_completion s i t = (none, s) ∧
      TodoService.delete_todo s i = (false, s) := by
  intro s i d t h
  refine ⟨?_, ?_, ?_⟩
  · simp [TodoService.update_todo, h]
  · simp [TodoService.toggle_todo_completion, h]
  · simp [TodoService.delete_todo, h]

theorem not_found_leaves_store_unchanged_witness :
    TodoService.update_todo emptyStore 3 { title := some "x", description := none, completed := none } 5 =
      (none, emptyStore) ∧
    TodoService.toggle_todo_completion emptyStore 3 5 = (none, emptyStore) ∧
    TodoService.delete_todo emptyStore 3 = (false, emptyStore) :=
  not_found_leaves_store_unchanged emptyStore 3
    { title := some "x", description := none, completed := none } 5 rfl

/-- C6: `delete_todo` returns `true` exactly when a record with the id
existed (and then removes it), `false` when none existed, without any error
path; after a successful delete, `get_todo_by_id` on that id returns `none`
and a second delete of the same id returns `false`. -/
theorem delete_todo_semantics :
    ∀ (s : StoreState) (i : Nat),
      ((TodoService.delete_todo s i).fst = true ↔ (findTodo s i).isSome = true) ∧
      (findTodo s i = none → TodoService.delete_todo s i = (false, s)) ∧
      ((TodoService.delete_todo s i).fst = true →
        TodoService.get_todo_by_id (TodoService.delete_todo s i).snd i = none ∧
        (TodoService.delete_todo (TodoService.delete_todo s i).snd i).fst = false) := by
  intro s i
  cases hf : findTodo s i with
  | none =>
    refine ⟨?_, ?_, ?_⟩
    · simp [TodoService.delete_todo, hf]
    · intro _
      simp [TodoService.delete_todo, hf]
    · intro hcontra
      simp [TodoService.delete_todo, hf] at hcontra
  | some todo =>
    have hdel : TodoService.delete_todo s i =
        (true, { s with todos := s.todos.filter (fun t => !decide (t.id = some i)) }) := by
      simp [TodoService.delete_todo, hf]
    have hfind3 : List.find? (fun x => decide (x.id = some i))
        (s.todos.filter (fun x => !decide (x.id = some i))) = none := find?_deleted
    refine ⟨?_, ?_, ?_⟩
    · simp [hdel, hf]
    · intro hcontra
      simp at hcontra
    · intro _
      constructor
      · rw [hdel]
        simp [TodoService.get_todo_by_id, findTodo_eq, hfind3]
      · rw [hdel]
        simp [TodoService.delete_todo, findTodo_eq, hfind3]

theorem delete_todo_semantics_witness :
    TodoService.get_todo_by_id (TodoService.delete_todo sampleStore 1).snd 1 = none ∧
    (TodoService.delete_todo (TodoService.delete_todo sampleStore 1).snd 1).fst = false :=
  (delete_todo_semantics sampleStore 1).2.2 (by decide)

theorem findTodo_toggle_found {s : StoreState} {i : Nat} (t : Nat) {todo : Todo}
    (hf : findTodo s i = some todo) :
    findTodo (TodoService.toggle_todo_completion s i t).snd i =
      some { todo with completed := !todo.completed, updated_at := t } := by
  have hf0 : List.find? (fun x => decide (x.id = some i)) s.todos = some todo := hf
  have hpred := List.find?_some hf0
  have hid : todo.id = some i := of_decide_eq_true hpred
  have h1 : (TodoService.toggle_todo_completion s i t).snd = { s with todos := replaceTodo s.todos i ({ todo with completed := !todo.completed, updated_at := t }) } := by
    simp [TodoService.toggle_todo_completion, hf]
  rw [h1]
  show List.find? (fun x => decide (x.id = some i))
    (replaceTodo s.todos i ({ todo with completed := !todo.completed, updated_at := t })) = _
  exact find?_replaceTodo (by simp [hid]) hf0

/-- C5: two consecutive `toggle_todo_completion` calls on an existing id
restore `completed` to its value before the first call — the stored row after
the second call agrees with the original on every field except `updated_at`,
which carries the second call's clock read. -/
theorem toggle_twice_restores_completed :
    ∀ (s : StoreState) (i t1 t2 : Nat) (todo : Todo), findTodo s i = some todo →
      findTodo (TodoService.toggle_todo_completion
          (TodoService.toggle_todo_completion s i t1).snd i t2).snd i =
        some { todo with updated_at := t2 } := by
  intro s i t1 t2 todo hf
  have h1 := findTodo_toggle_found t1 hf
  have h2 := findTodo_toggle_found t2 h1
  refine h2.trans ?_
  simp

theorem toggle_twice_restores_completed_witness :
    findTodo (TodoService.toggle_todo_completion
        (TodoService.toggle_todo_completion sampleStore 1 3).snd 1 4).snd 1 =
      some { sampleTodo with updated_at := 4 } :=
  toggle_twice_restores_completed sampleStore 1 3 4 sampleTodo (by decide)

/-- C2: on an existing id, `update_todo` applies exactly the fields present in
the request (absent fields keep their prior values), stamps `updated_at` with
the call's clock read, persists the updated row, and returns the full
post-update response; on an id with no matching record it returns the absent
signal. -/
theorem update_applies_present_fields :
    ∀ (s : StoreState) (i : Nat) (d : TodoUpdate) (now : Nat),
      (findTodo s i = none → TodoService.update_todo s i d now = (none, s)) ∧
      (∀ todo : Todo, findTodo s i = some todo →
        (TodoService.update_todo s i d now).fst =
          some (TodoResponse.fromTodo (applyUpdate todo d now)) ∧
        findTodo (TodoService.update_todo s i d now).snd i =
          some (applyUpdate todo d now) ∧
        (d.title = none → (applyUpdate todo d now).title = todo.title) ∧
        (d.description = none → (applyUpdate todo d now).description = todo.description) ∧
        (d.completed = none → (applyUpdate todo d now).completed = todo.completed) ∧
        (∀ x, d.title = some x → (applyUpdate todo d now).title = x) ∧
        (∀ x, d.description = some x → (applyUpdate todo d now).description = x) ∧
        (∀ b, d.completed = some b → (applyUpdate todo d now).completed = b) ∧
        (applyUpdate todo d now).updated_at = now ∧
        (applyUpdate todo d now).created_at = todo.created_at) := by
  intro s i d now
  constructor
  · intro h
    simp [TodoService.update_todo, h]
  · intro todo hf
    have hf0 : List.find? (fun x => decide (x.id = some i)) s.todos = some todo := hf
    have hpred := List.find?_some hf0
    have hid : todo.id = some i := of_decide_eq_true hpred
    have hsnd : (TodoService.update_todo s i d now).snd =
        { s with todos := replaceTodo s.todos i (applyUpdate todo d now) } := by
      simp [TodoService.update_todo, hf]
    refine ⟨by simp [TodoService.update_todo, hf], ?_, ?_, ?_, ?_, ?_, ?_, ?_, rfl, rfl⟩
    · rw [hsnd]
      show List.find? (fun x => decide (x.id = some i))
        (replaceTodo s.todos i (applyUpdate todo d now)) = _
      exact find?_replaceTodo (by simp [applyUpdate, hid]) hf0
    · intro h
      simp [applyUpdate, h]
    · intro h
      simp [applyUpdate, h]
    · intro h
      simp [applyUpdate, h]
    · intro x h
      simp [applyUpdate, h]
    · intro x h
      simp [applyUpdate, h]
    · intro b h
      simp [applyUpdate, h]

theorem update_applies_present_fields_witness :
    findTodo (TodoService.update_todo sampleStore 1
        { title := none, description := none, completed := some true } 5).snd 1 =
      some (applyUpdate sampleTodo
        { title := none, description := none, completed := some true } 5) :=
  ((update_applies_present_fields sampleStore 1
      { title := none, description := none, completed := some true } 5).2
    sampleTodo (by decide)).2.1

/-- C4: `get_all_todos` lists the image under `TodoResponse.fromTodo` of the
store contents ordered by `created_at` descending (the sorted list is a
permutation of the store contents); rows with equal `created_at` keep their
store order — the store list is insertion order newest first, so ties are
newest first — and the empty store yields the empty sequence, not an error. -/
theorem get_all_todos_ordering :
    (∀ s : StoreState,
      TodoService.get_all_todos s = (sortByCreatedDesc s.todos).map TodoResponse.fromTodo ∧
      List.Sorted createdGe (sortByCreatedDesc s.todos) ∧
      (sortByCreatedDesc s.todos).Perm s.todos ∧
      (∀ c : Nat, (sortByCreatedDesc s.todos).filter (createdAtIs c) =
        s.todos.filter (createdAtIs c))) ∧
    TodoService.get_all_todos emptyStore = [] := by
  constructor
  · intro s
    exact ⟨rfl, List.sorted_insertionSort createdGe s.todos,
      List.perm_insertionSort createdGe s.todos,
      fun c => filter_sortByCreatedDesc s.todos c⟩
  · rfl

/-- C9: in every reachable store state, every persisted row satisfies
`created_at ≤ updated_at`: creation establishes it (the second clock read is
not before the first) and every mutation re-stamps `updated_at` with a clock
read no earlier than all previous ones while leaving `created_at` unchanged. -/
theorem updated_at_ge_created_at_invariant :
    ∀ (n : Nat) (s : StoreState), Reachable n s →
      ∀ todo ∈ s.todos, todo.created_at ≤ todo.updated_at := by
  intro n s h todo hmem
  exact ((reachable_inv h).2 todo hmem).2.1

theorem updated_at_ge_created_at_invariant_witness :
    (Todo.mk (some 1) "a" "" false 0 1).created_at ≤
      (Todo.mk (some 1) "a" "" false 0 1).updated_at :=
  updated_at_ge_created_at_invariant 1
    (TodoService.create_todo emptyStore { title := "a", description := "" } 0 1).snd
    (Reachable.create Reachable.init rfl (Nat.le_refl 0) (Nat.le_succ 0))
    (Todo.mk (some 1) "a" "" false 0 1) (by decide)

/-- C3 counterexample: `create_todo` reads the clock once for `created_at` and
once more for `updated_at`.  When the second read returns a later tick than the
first — clock ticks 0 then 1 here — the successfully created response carries
`created_at ≠ updated_at`, refuting "created_at equal to updated_at" as
stated. -/
theorem create_timestamps_can_differ :
    (TodoService.create_todo emptyStore { title := "a", description := "" } 0 1).fst.created_at ≠
      (TodoService.create_todo emptyStore { title := "a", description := "" } 0 1).fst.updated_at := by
  decide

/-- C3 amended: every successful create on a reachable store returns a
response with a positive id and `completed = false`, and its `created_at`
equals its `updated_at` whenever the two clock reads inside `create_todo`
return the same tick (in general the reads are only non-decreasing). -/
theorem create_post_conditions :
    ∀ (n : Nat) (s : StoreState) (d : TodoCreate) (t1 t2 : Nat), Reachable n s → t1 ≤ t2 →
      0 < (TodoService.create_todo s d t1 t2).fst.id ∧
      (TodoService.create_todo s d t1 t2).fst.completed = false ∧
      (t1 = t2 → (TodoService.create_todo s d t1 t2).fst.created_at =
        (TodoService.create_todo s d t1 t2).fst.updated_at) := by
  intro n s d t1 t2 h _
  have hinv := reachable_inv h
  refine ⟨?_, rfl, ?_⟩
  · show 0 < (some s.nextId).getD 0
    have h1 : 1 ≤ s.nextId := hinv.1
    simp
    omega
  · intro he
    show isoformat t1 = isoformat t2
    rw [he]

theorem create_post_conditions_witness :
    0 < (TodoService.create_todo emptyStore { title := "a", description := "" } 3 3).fst.id ∧
    (TodoService.create_todo emptyStore { title := "a", description := "" } 3 3).fst.completed = false ∧
    (3 = 3 → (TodoService.create_todo emptyStore { title := "a", description := "" } 3 3).fst.created_at =
      (TodoService.create_todo emptyStore { title := "a", description := "" } 3 3).fst.updated_at) :=
  create_post_conditions 0 emptyStore { title := "a", description := "" } 3 3
    Reachable.init (Nat.le_refl 3)

/-- C1 counterexample: the create path rejects nothing about blank titles —
neither the `TodoCreate` schema nor `create_todo` checks emptiness or trims
(the only guard lives in the UI layer).  A title consisting of one space is
empty after trimming, yet the create flow succeeds on it. -/
theorem create_accepts_blank_title :
    emptyAfterTrim " " = true ∧
    ∃ r s2, createTodoFlow " " "" emptyStore 0 0 = Except.ok (r, s2) := by
  refine ⟨by decide, ?_⟩
  exact ⟨_, _, rfl⟩

/-- C1 amended: the create path rejects with a validation error exactly when
the title exceeds 200 characters or the description exceeds 1000 characters —
boundary lengths are accepted, rejection happens in the request schema before
any store interaction — while a title that is empty after trimming is NOT
rejected. -/
theorem create_validation_boundaries :
    ∀ (title description : String) (s : StoreState) (t1 t2 : Nat),
      (title.length ≤ 200 → description.length ≤ 1000 →
        createTodoFlow title description s t1 t2 =
          Except.ok (TodoService.create_todo s { title := title, description := description } t1 t2)) ∧
      (title.length > 200 ∨ description.length > 1000 →
        ∃ e, createTodoFlow title description s t1 t2 = Except.error e) := by
  intro title description s t1 t2
  constructor
  · intro h1 h2
    simp [createTodoFlow, TodoCreate.validate, Nat.not_lt.mpr h1, Nat.not_lt.mpr h2, Except.map]
  · intro h
    rcases h with h | h
    · exact ⟨"title: String should have at most 200 characters",
        by simp [createTodoFlow, TodoCreate.validate, h, Except.map]⟩
    · by_cases ht : title.length > 200
      · exact ⟨"title: String should have at most 200 characters",
          by simp [createTodoFlow, TodoCreate.validate, ht, Except.map]⟩
      · exact ⟨"description: String should have at most 1000 characters",
          by simp [createTodoFlow, TodoCreate.validate, ht, h, Except.map]⟩

set_option maxRecDepth 40000 in
theorem create_validation_boundaries_witness :
    createTodoFlow maxTitle maxDescription emptyStore 0 0 =
      Except.ok (TodoService.create_todo emptyStore
        { title := maxTitle, description := maxDescription } 0 0) :=
  (create_validation_boundaries maxTitle maxDescription emptyStore 0 0).1
    (by decide) (by decide)
